import Mathlib

/-!
Verification of the blob-e2e-poc repository: a shallow embedding of the
payload codec (`common/src/payload.rs`), the state-transition helper
(`app/src/lib.rs`), the synchronizer's ledger operations and slot walker
(`synchronizer/src/main.rs`, `synchronizer/src/lib.rs`), and the blob
transport (`ad-server/src/eth.rs`), together with theorems settling the
specification claims about them.

Bytes are modelled as `List Nat` (each entry a byte value), field elements
as `Nat` below the Goldilocks order, and fallible Rust functions as
`Option`/`Except` values; a Rust `panic!`/out-of-bounds abort is modelled
as `Option.none` wrapping the ordinary result.
-/

/-! ## Payload codec (`common/src/payload.rs`) -/

/-- The `F::ORDER` of the Goldilocks field used by plonky2:
`2^64 - 2^32 + 1`. -/
def FIELD_ORDER : Nat := 2 ^ 64 - 2 ^ 32 + 1

/-- The `u64::to_le_bytes`: the 8 little-endian bytes of `n` (mod `2^64`). -/
def u64ToLeBytes (n : Nat) : List Nat :=
  (List.range 8).map fun i => n / 256 ^ i % 256

/-- The `u64::from_le_bytes` over an 8-byte list. -/
def leBytesToU64 (bs : List Nat) : Nat :=
  bs.foldr (fun b acc => acc * 256 + b) 0

/-- The `write_elems`: serialize field elements as consecutive
8-byte little-endian words (`to_canonical_u64().to_le_bytes()`). -/
def writeElems (elems : List Nat) : List Nat :=
  (elems.map u64ToLeBytes).flatten

/-- The `read_elems::<N>`: read `n` field elements of 8 little-endian bytes
each, failing (`none`) on a short read or when a word is not canonical
(`n >= F::ORDER`).  Returns the elements and the remaining bytes. -/
def readElems : Nat → List Nat → Option (List Nat × List Nat)
  | 0, bytes => some ([], bytes)
  | n + 1, bytes =>
    if 8 ≤ bytes.length then
      let v := leBytesToU64 (bytes.take 8)
      if v < FIELD_ORDER then
        (readElems n (bytes.drop 8)).map fun p => (v :: p.1, p.2)
      else none
    else none

/-- The `PAYLOAD_MAGIC` (`0xad00`). -/
def PAYLOAD_MAGIC : Nat := 0xad00

/-- The `PAYLOAD_TYPE_INIT`. -/
def PAYLOAD_TYPE_INIT : Nat := 1

/-- The `PAYLOAD_TYPE_UPDATE`. -/
def PAYLOAD_TYPE_UPDATE : Nat := 2

/-- The `u16::to_le_bytes`. -/
def u16ToLeBytes (n : Nat) : List Nat := [n % 256, n / 256 % 256]

/-- The `PayloadInit`: list id, custom predicate reference
(batch id + index) and vds root; each hash is 4 field elements. -/
structure PayloadInit where
  id : List Nat
  batchId : List Nat
  predIndex : Nat
  vdsRoot : List Nat
  deriving DecidableEq

/-- The `PayloadUpdate`: list id, the serialized compressed proof of the
shrunk main pod, and the new state commitment.  This is the struct as
defined in `common/src/payload.rs`; it has exactly these three fields. -/
structure PayloadUpdate where
  id : List Nat
  shrunkMainPodProof : List Nat
  newState : List Nat
  deriving DecidableEq

/-- The `Payload`: the discriminated union of Init and Update payloads. -/
inductive Payload where
  | init (p : PayloadInit)
  | update (p : PayloadUpdate)
  deriving DecidableEq

/-- The `PayloadInit::write_bytes`: id, batch id, index as a single `u8`
(`cpr.index as u8`), vds root. -/
def PayloadInit.writeBytes (p : PayloadInit) : List Nat :=
  writeElems p.id ++ (writeElems p.batchId ++ [p.predIndex % 256]) ++ writeElems p.vdsRoot

/-- The `PayloadUpdate::write_bytes`: id, compressed proof bytes
(`write_compressed_proof`), new state. -/
def PayloadUpdate.writeBytes (p : PayloadUpdate) : List Nat :=
  writeElems p.id ++ p.shrunkMainPodProof ++ writeElems p.newState

/-- The `Payload::to_bytes`: little-endian magic, one type byte, body. -/
def Payload.toBytes : Payload → List Nat
  | .init p => u16ToLeBytes PAYLOAD_MAGIC ++ [PAYLOAD_TYPE_INIT] ++ p.writeBytes
  | .update p => u16ToLeBytes PAYLOAD_MAGIC ++ [PAYLOAD_TYPE_UPDATE] ++ p.writeBytes

/-- The `read_compressed_proof(buffer, common_data)`: the number of bytes the
compressed proof occupies is a function of the common circuit data alone,
so the common circuit data is modelled by that byte count `proofLen` and
the proof by its serialized bytes. -/
def readCompressedProof (proofLen : Nat) (bytes : List Nat) :
    Option (List Nat × List Nat) :=
  if proofLen ≤ bytes.length then some (bytes.take proofLen, bytes.drop proofLen)
  else none

/-- The `PayloadInit::from_bytes`. -/
def PayloadInit.fromBytes (bytes : List Nat) : Option PayloadInit := do
  let (id, bytes) ← readElems 4 bytes
  let (batchId, bytes) ← readElems 4 bytes
  let predIndex ← bytes.head?
  let bytes := bytes.tail
  let (vdsRoot, _bytes) ← readElems 4 bytes
  pure { id := id, batchId := batchId, predIndex := predIndex, vdsRoot := vdsRoot }

/-- The `PayloadUpdate::from_bytes`. -/
def PayloadUpdate.fromBytes (proofLen : Nat) (bytes : List Nat) :
    Option PayloadUpdate := do
  let (id, bytes) ← readElems 4 bytes
  let (proof, bytes) ← readCompressedProof proofLen bytes
  let (newState, _bytes) ← readElems 4 bytes
  pure { id := id, shrunkMainPodProof := proof, newState := newState }

/-- The `Payload::from_bytes`: check the magic, dispatch on the type byte. -/
def Payload.fromBytes (proofLen : Nat) (bytes : List Nat) : Option Payload :=
  match bytes with
  | b0 :: b1 :: t :: rest =>
    if b0 + 256 * b1 ≠ PAYLOAD_MAGIC then none
    else if t = PAYLOAD_TYPE_INIT then (PayloadInit.fromBytes rest).map .init
    else if t = PAYLOAD_TYPE_UPDATE then
      (PayloadUpdate.fromBytes proofLen rest).map .update
    else none
  | _ => none

/-- A hash value is well formed when it is 4 canonical field elements. -/
def hashWF (h : List Nat) : Prop := h.length = 4 ∧ ∀ e ∈ h, e < FIELD_ORDER

/-- Well-formedness of a payload relative to the common circuit data:
hashes are 4 canonical field elements, the predicate index fits in a
`u8`, and the embedded proof has the byte length the common circuit data
implies. -/
def Payload.WF (proofLen : Nat) : Payload → Prop
  | .init p => hashWF p.id ∧ hashWF p.batchId ∧ p.predIndex < 256 ∧ hashWF p.vdsRoot
  | .update p =>
    hashWF p.id ∧ p.shrunkMainPodProof.length = proofLen ∧ hashWF p.newState

theorem leBytesToU64_u64ToLeBytes (n : Nat) (h : n < 2 ^ 64) :
    leBytesToU64 (u64ToLeBytes n) = n := by
  simp only [u64ToLeBytes, leBytesToU64, List.range_succ, List.range_zero,
    List.nil_append, List.map_append, List.map_cons, List.map_nil,
    List.foldr_append, List.foldr_cons, List.foldr_nil]
  omega

theorem u64ToLeBytes_length (n : Nat) : (u64ToLeBytes n).length = 8 := by
  simp [u64ToLeBytes]

theorem readElems_writeElems (es rest : List Nat)
    (h : ∀ e ∈ es, e < FIELD_ORDER) :
    readElems es.length (writeElems es ++ rest) = some (es, rest) := by
  induction es with
  | nil => simp [writeElems, readElems]
  | cons e es ih =>
    have he : e < FIELD_ORDER := h e (List.mem_cons_self e es)
    have he64 : e < 2 ^ 64 := lt_of_lt_of_le he (by norm_num [FIELD_ORDER])
    have hrw : writeElems (e :: es) ++ rest = u64ToLeBytes e ++ (writeElems es ++ rest) := by
      simp [writeElems]
    have hlen : 8 ≤ (writeElems (e :: es) ++ rest).length := by
      rw [hrw, List.length_append, u64ToLeBytes_length]
      omega
    have htake : (writeElems (e :: es) ++ rest).take 8 = u64ToLeBytes e := by
      rw [hrw, ← u64ToLeBytes_length e]
      exact List.take_left _ _
    have hdrop : (writeElems (e :: es) ++ rest).drop 8 = writeElems es ++ rest := by
      rw [hrw, ← u64ToLeBytes_length e]
      exact List.drop_left _ _
    rw [List.length_cons, readElems, if_pos hlen]
    simp only [htake, hdrop, leBytesToU64_u64ToLeBytes e he64, if_pos he,
      ih (fun x hx => h x (List.mem_cons_of_mem e hx))]
    rfl

theorem readCompressedProof_append (proof rest : List Nat) :
    readCompressedProof proof.length (proof ++ rest) = some (proof, rest) := by
  rw [readCompressedProof, if_pos (by simp), List.take_left, List.drop_left]

theorem readElems_writeElems_hash (hh rest : List Nat) (h : hashWF hh) :
    readElems 4 (writeElems hh ++ rest) = some (hh, rest) := by
  have := readElems_writeElems hh rest h.2
  rwa [h.1] at this

theorem payloadInit_fromBytes_writeBytes (p : PayloadInit)
    (hid : hashWF p.id) (hbatch : hashWF p.batchId) (hidx : p.predIndex < 256)
    (hvds : hashWF p.vdsRoot) :
    PayloadInit.fromBytes p.writeBytes = some p := by
  have e1 : p.writeBytes =
      writeElems p.id ++
        (writeElems p.batchId ++ (p.predIndex % 256 :: (writeElems p.vdsRoot ++ []))) := by
    simp [PayloadInit.writeBytes]
  rw [PayloadInit.fromBytes, e1]
  simp only [readElems_writeElems_hash _ _ hid, Option.bind_eq_bind, Option.some_bind,
    readElems_writeElems_hash _ _ hbatch, List.head?_cons, List.tail_cons,
    readElems_writeElems_hash _ _ hvds, Nat.mod_eq_of_lt hidx]
  rfl

theorem payloadUpdate_fromBytes_writeBytes (proofLen : Nat) (p : PayloadUpdate)
    (hid : hashWF p.id) (hproof : p.shrunkMainPodProof.length = proofLen)
    (hstate : hashWF p.newState) :
    PayloadUpdate.fromBytes proofLen p.writeBytes = some p := by
  have e1 : p.writeBytes =
      writeElems p.id ++ (p.shrunkMainPodProof ++ (writeElems p.newState ++ [])) := by
    simp [PayloadUpdate.writeBytes]
  have e2 : readCompressedProof proofLen (p.shrunkMainPodProof ++ (writeElems p.newState ++ [])) =
      some (p.shrunkMainPodProof, writeElems p.newState ++ []) := by
    rw [← hproof]
    exact readCompressedProof_append _ _
  rw [PayloadUpdate.fromBytes, e1]
  simp only [readElems_writeElems_hash _ _ hid, Option.bind_eq_bind, Option.some_bind, e2,
    readElems_writeElems_hash _ _ hstate]
  rfl

theorem payload_roundtrip_aux (proofLen : Nat) (p : Payload)
    (h : p.WF proofLen) :
    Payload.fromBytes proofLen p.toBytes = some p := by
  cases p with
  | init p =>
    obtain ⟨hid, hbatch, hidx, hvds⟩ := h
    have : Payload.toBytes (.init p) = 0 :: 0xad :: PAYLOAD_TYPE_INIT :: p.writeBytes := by
      simp [Payload.toBytes, u16ToLeBytes, PAYLOAD_MAGIC]
    rw [this, Payload.fromBytes]
    simp [PAYLOAD_MAGIC, PAYLOAD_TYPE_INIT,
      payloadInit_fromBytes_writeBytes p hid hbatch hidx hvds]
  | update p =>
    obtain ⟨hid, hproof, hstate⟩ := h
    have : Payload.toBytes (.update p) = 0 :: 0xad :: PAYLOAD_TYPE_UPDATE :: p.writeBytes := by
      simp [Payload.toBytes, u16ToLeBytes, PAYLOAD_MAGIC]
    rw [this, Payload.fromBytes]
    simp [PAYLOAD_MAGIC, PAYLOAD_TYPE_INIT, PAYLOAD_TYPE_UPDATE,
      payloadUpdate_fromBytes_writeBytes proofLen p hid hproof hstate]

/-- C4: For every well-formed payload (Init or Update), decoding the
encoding round-trips: `Payload::from_bytes(p.to_bytes(), common_data)`
returns `Ok(p)`, where the common circuit data is modelled by the byte
length of the compressed proof it implies. -/
theorem payload_fromBytes_toBytes (proofLen : Nat) (p : Payload)
    (h : p.WF proofLen) :
    Payload.fromBytes proofLen p.toBytes = some p :=
  payload_roundtrip_aux proofLen p h

/-- Closed witness for `payload_fromBytes_toBytes`: the round trip holds
at a concrete Init payload and at a concrete Update payload. -/
theorem payload_fromBytes_toBytes_spot :
    Payload.fromBytes 2
        (Payload.toBytes (.init ⟨[1, 2, 3, 4], [5, 6, 7, 8], 9, [10, 11, 12, 13]⟩)) =
      some (.init ⟨[1, 2, 3, 4], [5, 6, 7, 8], 9, [10, 11, 12, 13]⟩) ∧
    Payload.fromBytes 2
        (Payload.toBytes (.update ⟨[1, 2, 3, 4], [255, 254], [10, 11, 12, 13]⟩)) =
      some (.update ⟨[1, 2, 3, 4], [255, 254], [10, 11, 12, 13]⟩) := by
  constructor
  · exact payload_fromBytes_toBytes 2 _ (by unfold Payload.WF hashWF; decide)
  · exact payload_fromBytes_toBytes 2 _ (by unfold Payload.WF hashWF; decide)

/-- The wire format the spec asserts for an Update payload: after the new
state there is a trailing 32-byte op digest (four serialized fields in
all).  Stated from the spec's words, to be compared with the encoder
defined from the source. -/
def specUpdateEncodingHasOpDigest (p : PayloadUpdate) : Prop :=
  ∃ opDigest : List Nat, opDigest.length = 32 ∧
    (Payload.update p).toBytes =
      u16ToLeBytes PAYLOAD_MAGIC ++ [PAYLOAD_TYPE_UPDATE] ++ writeElems p.id ++
        p.shrunkMainPodProof ++ writeElems p.newState ++ opDigest

/-- A concrete Update payload with an empty compressed proof. -/
def c2Payload : PayloadUpdate :=
  { id := [1, 2, 3, 4], shrunkMainPodProof := [], newState := [5, 6, 7, 8] }

/-- C2 counterexample: the encoder of `common/src/payload.rs` emits no op
digest.  At the concrete payload `c2Payload` the encoding is
3 + 32 + 0 + 32 = 67 bytes, while the claimed format (magic, type, id,
proof, new state, op digest) would need 99, so no 32-byte op digest can
be split off the encoder output. -/
theorem specUpdateEncodingHasOpDigest_c2Payload_false :
    ¬ specUpdateEncodingHasOpDigest c2Payload := by
  rintro ⟨d, hd, heq⟩
  have hlen := congrArg List.length heq
  simp only [Payload.toBytes, PayloadUpdate.writeBytes, List.length_append,
    u16ToLeBytes, writeElems, c2Payload, List.length_cons] at hlen
  simp [hd] at hlen
  omega

/-- C2 amended: an encoded Update payload consists of the two-byte magic
`0xad00` and type tag 2 followed by the 32-byte list id, the compressed
proof (whose length is implicit in the common circuit data), and the
32-byte new-state value — there is no op digest field — and decoding
recovers all three fields. -/
theorem payloadUpdate_encoding_three_fields (proofLen : Nat) (p : PayloadUpdate)
    (hid : hashWF p.id) (hproof : p.shrunkMainPodProof.length = proofLen)
    (hstate : hashWF p.newState) :
    (Payload.update p).toBytes =
      u16ToLeBytes PAYLOAD_MAGIC ++ [PAYLOAD_TYPE_UPDATE] ++
        (writeElems p.id ++ p.shrunkMainPodProof ++ writeElems p.newState) ∧
    Payload.fromBytes proofLen (Payload.update p).toBytes = some (.update p) := by
  constructor
  · rfl
  · exact payload_roundtrip_aux proofLen (.update p) ⟨hid, hproof, hstate⟩

/-- Closed witness for `payloadUpdate_encoding_three_fields` at a concrete
Update payload. -/
theorem payloadUpdate_encoding_three_fields_spot :
    Payload.fromBytes 1 (Payload.update ⟨[1, 2, 3, 4], [0], [5, 6, 7, 8]⟩).toBytes =
      some (.update ⟨[1, 2, 3, 4], [0], [5, 6, 7, 8]⟩) :=
  (payloadUpdate_encoding_three_fields 1 ⟨[1, 2, 3, 4], [0], [5, 6, 7, 8]⟩
    (by unfold hashWF; decide) rfl (by unfold hashWF; decide)).2

/-! ## State helper (`app/src/lib.rs`) -/

/-- A membership-list state: the `Dictionary` mapping group names to sets
of users, modelled as an association list (the source backs it with a
hash map, so theorems that need key uniqueness assume `Nodup` keys). -/
abbrev AppState := List (String × Finset String)

/-- The `Dictionary::get`: first entry with the given key. -/
def dictGet : AppState → String → Option (Finset String)
  | [], _ => none
  | kv :: d, k => if kv.1 = k then some kv.2 else dictGet d k

/-- The `Dictionary::update`: replace the value at an existing key. -/
def dictUpdate (d : AppState) (k : String) (v : Finset String) : AppState :=
  d.map fun kv => if kv.1 = k then (k, v) else kv

/-- The `Op`: the operation dictionary as consumed by the state helper
(`name` plus, for add/del, `group` and `user`). -/
inductive AppOp where
  | initOp
  | add (group user : String)
  | del (group user : String)
  deriving DecidableEq

/-- The `init_state` dictionary built by `st_init`: the three group keys
each mapped to an empty set. -/
def initState : AppState := [("red", ∅), ("green", ∅), ("blue", ∅)]

/-- The `Helper::st_init`.  The source compares commitments
(`Value::from(old) != Value::from(EMPTY_VALUE)`); the empty dictionary's
commitment is the system-wide empty value, so the comparison holds iff
`old` is the empty dictionary.  `none` models the `assert_eq!` panic on a
non-init op. -/
def stInit (old : AppState) (op : AppOp) : Option (Except String AppState) :=
  match op with
  | .initOp =>
    if old = [] then some (.ok initState)
    else some (.error "old state is not empty")
  | _ => none

/-- The `Helper::st_add_del`.  `none` models the panics: the `assert!` on the
op name and the `old.get(&group).unwrap()` when the group key is
absent. -/
def stAddDel (old : AppState) (op : AppOp) : Option (Except String AppState) :=
  match op with
  | .initOp => none
  | .add g u =>
    match dictGet old g with
    | none => none
    | some oldGroup =>
      if u ∈ oldGroup then some (.error "old_group already contains user")
      else some (.ok (dictUpdate old g (insert u oldGroup)))
  | .del g u =>
    match dictGet old g with
    | none => none
    | some oldGroup =>
      if u ∈ oldGroup then some (.ok (dictUpdate old g (oldGroup.erase u)))
      else some (.error "old_group doesn\x27t contain user")

/-- C5: the state helper fails with a deterministic error exactly when:
`st_init` is given a non-empty old state; `st_add_del` on an add finds the
user already in the target group; `st_add_del` on a del finds the user
absent from the target group (with the error message
"old_group doesn't contain user"). -/
theorem state_helper_error_cases :
    (∀ old : AppState,
      (∃ e, stInit old .initOp = some (.error e)) ↔ old ≠ []) ∧
    (∀ (old : AppState) (g u : String) (s : Finset String),
      dictGet old g = some s →
      ((∃ e, stAddDel old (.add g u) = some (.error e)) ↔ u ∈ s)) ∧
    (∀ (old : AppState) (g u : String) (s : Finset String),
      dictGet old g = some s →
      (stAddDel old (.del g u) = some (.error "old_group doesn\x27t contain user") ↔
        u ∉ s)) := by
  refine ⟨fun old => ?_, fun old g u s hs => ?_, fun old g u s hs => ?_⟩
  · by_cases h : old = [] <;> simp [stInit, h]
  · by_cases h : u ∈ s <;> simp [stAddDel, hs, h]
  · by_cases h : u ∈ s <;> simp [stAddDel, hs, h]

/-- Closed witness for `state_helper_error_cases` at concrete states and
operations. -/
theorem state_helper_error_cases_spot :
    (∃ e, stInit [("red", (∅ : Finset String))] .initOp = some (.error e)) ∧
    (∃ e, stAddDel [("red", ({"alice"} : Finset String))] (.add "red" "alice") =
      some (.error e)) ∧
    stAddDel [("red", (∅ : Finset String))] (.del "red" "alice") =
      some (.error "old_group doesn\x27t contain user") :=
  ⟨(state_helper_error_cases.1 _).mpr (by decide),
    (state_helper_error_cases.2.1 _ "red" "alice" {"alice"} (by decide)).mpr (by decide),
    (state_helper_error_cases.2.2 _ "red" "alice" ∅ (by decide)).mpr (by decide)⟩

theorem dictGet_dictUpdate (d : AppState) (k : String) (v s : Finset String)
    (h : dictGet d k = some s) : dictGet (dictUpdate d k v) k = some v := by
  induction d with
  | nil => simp [dictGet] at h
  | cons kv d ih =>
    by_cases hk : kv.1 = k
    · simp [dictGet, dictUpdate, hk]
    · rw [dictGet, if_neg hk] at h
      simpa [dictGet, dictUpdate, hk] using ih h

theorem dictUpdate_dictUpdate (d : AppState) (k : String) (v w : Finset String) :
    dictUpdate (dictUpdate d k v) k w = dictUpdate d k w := by
  simp only [dictUpdate, List.map_map]
  refine List.map_congr_left fun kv _ => ?_
  by_cases hk : kv.1 = k <;> simp [hk, Function.comp]

theorem dictUpdate_not_mem (d : AppState) (k : String) (v : Finset String)
    (h : k ∉ d.map Prod.fst) : dictUpdate d k v = d := by
  induction d with
  | nil => rfl
  | cons kv d ih =>
    simp only [List.map_cons, List.mem_cons, not_or] at h
    have hk : ¬kv.1 = k := fun hkk => h.1 hkk.symm
    simp only [dictUpdate] at ih ⊢
    rw [List.map_cons, if_neg hk, ih h.2]

theorem dictUpdate_eq_self (d : AppState) (k : String) (s : Finset String)
    (hnd : (d.map Prod.fst).Nodup) (h : dictGet d k = some s) :
    dictUpdate d k s = d := by
  induction d with
  | nil => rfl
  | cons kv d ih =>
    rw [List.map_cons, List.nodup_cons] at hnd
    by_cases hk : kv.1 = k
    · rw [dictGet, if_pos hk] at h
      have hv : kv = (k, s) := by
        cases kv
        simp only at hk
        simp only [Option.some.injEq] at h
        simp [hk, h]
      rw [dictUpdate, List.map_cons, if_pos hk, hv]
      have : k ∉ d.map Prod.fst := by
        rw [← hk]
        exact hnd.1
      exact congrArg _ (dictUpdate_not_mem d k s this)
    · rw [dictGet, if_neg hk] at h
      rw [dictUpdate, List.map_cons, if_neg hk]
      exact congrArg _ (ih hnd.2 h)

/-- C6: for every state whose entry at group `g` is a set not containing
user `u`, applying the helper for `Add{g,u}` and then for `Del{g,u}` to
the result gives back a state equal to the original — hence with the same
commitment, for any commitment function. -/
theorem add_then_del_restores_commitment (S : AppState) (g u : String)
    (s : Finset String) {α : Type} (commit : AppState → α)
    (hkeys : (S.map Prod.fst).Nodup) (hget : dictGet S g = some s) (hu : u ∉ s) :
    ∃ S1, stAddDel S (.add g u) = some (.ok S1) ∧
      ∃ S2, stAddDel S1 (.del g u) = some (.ok S2) ∧
        S2 = S ∧ commit S2 = commit S := by
  refine ⟨dictUpdate S g (insert u s), by simp [stAddDel, hget, hu], ?_⟩
  have h1 : dictGet (dictUpdate S g (insert u s)) g = some (insert u s) :=
    dictGet_dictUpdate S g _ s hget
  have h2 : (insert u s).erase u = s := Finset.erase_insert hu
  refine ⟨S, ?_, rfl, rfl⟩
  simp only [stAddDel, h1, if_pos (Finset.mem_insert_self u s)]
  rw [h2, dictUpdate_dictUpdate, dictUpdate_eq_self S g s hkeys hget]

/-- Closed witness for `add_then_del_restores_commitment` at a concrete
one-group state. -/
theorem add_then_del_restores_commitment_spot :
    ∃ S1, stAddDel [("red", (∅ : Finset String))] (.add "red" "alice") =
        some (.ok S1) ∧
      ∃ S2, stAddDel S1 (.del "red" "alice") = some (.ok S2) ∧
        S2 = [("red", (∅ : Finset String))] ∧
        List.length S2 = List.length [("red", (∅ : Finset String))] :=
  add_then_del_restores_commitment [("red", ∅)] "red" "alice" ∅ List.length
    (by decide) (by decide) (by decide)

/-! ## Synchronizer ledger (`synchronizer/src/main.rs`) -/

/-- An AD list id: a 4-field-element hash. -/
abbrev AdId := List Nat

/-- The `CustomPredicateRef` as stored in the ledger: batch id plus index. -/
structure CprRef where
  batchId : List Nat
  index : Nat
  deriving DecidableEq

/-- A row of the `ad` table. -/
structure AdRow where
  id : AdId
  customPredicateRef : CprRef
  vdsRoot : List Nat
  blobVersionedHash : List Nat
  deriving DecidableEq

/-- A row of the `ad_update` table. -/
structure AdUpdateRow where
  id : AdId
  num : Int
  state : List Nat
  blobVersionedHash : List Nat
  deriving DecidableEq

/-- The ledger tables touched by the Init/Update payload handlers. -/
structure Ledger where
  ads : List AdRow
  adUpdates : List AdUpdateRow
  deriving DecidableEq

/-- The `EMPTY_VALUE`: the system-wide empty raw value. -/
def EMPTY_VALUE : List Nat := [0, 0, 0, 0]

/-- The `Database::get_ad`: `SELECT * FROM ad WHERE id = ?`. -/
def getAd (L : Ledger) (id : AdId) : Option AdRow :=
  L.ads.find? fun ad => ad.id == id

/-- The `Database::get_ad_update_last`:
`SELECT * FROM ad_update WHERE id = ? ORDER BY num DESC LIMIT 1`;
`(id, num)` is the table's primary key, so the maximum is unique. -/
def getAdUpdateLast (L : Ledger) (id : AdId) : Option AdUpdateRow :=
  (L.adUpdates.filter fun r => r.id == id).foldl
    (fun acc r =>
      match acc with
      | none => some r
      | some m => if m.num < r.num then some r else some m)
    none

/-- The `Node::process_payload_init`: reject when an `ad` row with this id
already exists, otherwise insert the `ad` row and `ad_update(id, 0,
EMPTY_VALUE)` (both inside the caller's per-slot transaction). -/
def processPayloadInit (L : Ledger) (blobVH : List Nat) (p : PayloadInit) :
    Except String Ledger :=
  match getAd L p.id with
  | some _ => .error "got init payload but AD already exists"
  | none =>
    .ok { ads := L.ads ++ [⟨p.id, ⟨p.batchId, p.predIndex⟩, p.vdsRoot, blobVH⟩],
          adUpdates := L.adUpdates ++ [⟨p.id, 0, EMPTY_VALUE, blobVH⟩] }

/-- The `Statement::Custom(predicate_ref, args)` as reconstructed by the
Update handler. -/
structure CustomStatement where
  pred : CprRef
  args : List (List Nat)
  deriving DecidableEq

/-- The `Node::process_payload_update`, parametric in the proof-system
primitives it calls: `calculate_statements_hash` on the singleton
statement list, decompression against the shrunk circuit's verifier
digest and common data (fixed at startup and folded into the function),
and `VerifierCircuitData::verify`. -/
def processPayloadUpdate
    (calculateStatementsHash : CustomStatement → List Nat)
    (decompress : List Nat → List Nat → Option (List Nat))
    (verify : List Nat → Bool)
    (L : Ledger) (blobVH : List Nat) (p : PayloadUpdate) : Except String Ledger :=
  match getAd L p.id with
  | none => .error "ad not found"
  | some ad =>
    match getAdUpdateLast L p.id with
    | none => .error "ad_update not found"
    | some last =>
      match decompress p.shrunkMainPodProof
          (calculateStatementsHash
            ⟨ad.customPredicateRef, [p.newState, last.state]⟩ ++ ad.vdsRoot) with
      | none => .error "CompressedProofWithPublicInputs::decompress"
      | some proof =>
        if verify proof then
          .ok { L with adUpdates :=
            L.adUpdates ++ [⟨p.id, last.num + 1, p.newState, blobVH⟩] }
        else .error "verify"

/-- C1: an `ad_update` row with `num > 0` is persisted only after the
embedded proof verifies.  Whenever the Update handler succeeds, it loaded
`ad(id)` and the most recent `ad_update(id, *)`, decompressed the proof
against the public inputs rebuilt as the statements hash of the custom
statement (the ad's predicate ref applied to `[new_state, prev_state]`)
concatenated with the ad's vds root, the verifier accepted it, and the
only ledger change is the appended `ad_update(id, last_num + 1,
new_state)` row; any failure returns an error and changes nothing. -/
theorem update_row_only_after_verification
    (csh : CustomStatement → List Nat)
    (decompress : List Nat → List Nat → Option (List Nat))
    (verify : List Nat → Bool)
    (L : Ledger) (blobVH : List Nat) (p : PayloadUpdate) (L' : Ledger)
    (h : processPayloadUpdate csh decompress verify L blobVH p = .ok L') :
    ∃ ad last proof,
      getAd L p.id = some ad ∧
      getAdUpdateLast L p.id = some last ∧
      decompress p.shrunkMainPodProof
        (csh ⟨ad.customPredicateRef, [p.newState, last.state]⟩ ++ ad.vdsRoot) =
          some proof ∧
      verify proof = true ∧
      L' = { L with adUpdates :=
        L.adUpdates ++ [⟨p.id, last.num + 1, p.newState, blobVH⟩] } := by
  unfold processPayloadUpdate at h
  split at h
  · exact absurd h (by simp)
  next ad hga =>
    split at h
    · exact absurd h (by simp)
    next last hlast =>
      split at h
      · exact absurd h (by simp)
      next proof hdec =>
        split at h
        next hv =>
          exact ⟨ad, last, proof, hga, hlast, hdec, hv,
            (Except.ok.injEq _ _ ▸ h).symm⟩
        next hv => exact absurd h (by simp)

/-- Closed witness for `update_row_only_after_verification` at a concrete
ledger, payload and proof-system instantiation. -/
theorem update_row_only_after_verification_spot :
    ∃ ad last proof,
      getAd ⟨[⟨[1, 1, 1, 1], ⟨[2, 2, 2, 2], 0⟩, [3, 3, 3, 3], [7]⟩],
          [⟨[1, 1, 1, 1], 0, [0, 0, 0, 0], [7]⟩]⟩ [1, 1, 1, 1] = some ad ∧
      getAdUpdateLast ⟨[⟨[1, 1, 1, 1], ⟨[2, 2, 2, 2], 0⟩, [3, 3, 3, 3], [7]⟩],
          [⟨[1, 1, 1, 1], 0, [0, 0, 0, 0], [7]⟩]⟩ [1, 1, 1, 1] = some last ∧
      (fun (pr _pi : List Nat) => some pr) [5, 5]
        ((fun _st : CustomStatement => [9, 9, 9, 9])
            ⟨ad.customPredicateRef, [[6, 6, 6, 6], last.state]⟩ ++ ad.vdsRoot) =
          some proof ∧
      (fun _pr : List Nat => true) proof = true ∧
      (⟨[⟨[1, 1, 1, 1], ⟨[2, 2, 2, 2], 0⟩, [3, 3, 3, 3], [7]⟩],
          [⟨[1, 1, 1, 1], 0, [0, 0, 0, 0], [7]⟩,
            ⟨[1, 1, 1, 1], 1, [6, 6, 6, 6], [8]⟩]⟩ : Ledger) =
        { ads := [⟨[1, 1, 1, 1], ⟨[2, 2, 2, 2], 0⟩, [3, 3, 3, 3], [7]⟩],
          adUpdates := [⟨[1, 1, 1, 1], 0, [0, 0, 0, 0], [7]⟩] ++
            [⟨[1, 1, 1, 1], last.num + 1, [6, 6, 6, 6], [8]⟩] } :=
  update_row_only_after_verification
    (fun _st => [9, 9, 9, 9]) (fun pr _pi => some pr) (fun _pr => true)
    ⟨[⟨[1, 1, 1, 1], ⟨[2, 2, 2, 2], 0⟩, [3, 3, 3, 3], [7]⟩],
      [⟨[1, 1, 1, 1], 0, [0, 0, 0, 0], [7]⟩]⟩
    [8] ⟨[1, 1, 1, 1], [5, 5], [6, 6, 6, 6]⟩
    ⟨[⟨[1, 1, 1, 1], ⟨[2, 2, 2, 2], 0⟩, [3, 3, 3, 3], [7]⟩],
      [⟨[1, 1, 1, 1], 0, [0, 0, 0, 0], [7]⟩, ⟨[1, 1, 1, 1], 1, [6, 6, 6, 6], [8]⟩]⟩
    rfl

/-- C8: an Init payload whose id already has an `ad` row is rejected with
an error (no ledger change results — an `Except.error` result inserts
nothing); for a fresh id, the `ad` row and the `ad_update(id, 0,
empty_state)` row are inserted together. -/
theorem init_duplicate_rejected (L : Ledger) (blobVH : List Nat) (p : PayloadInit) :
    ((∃ ad ∈ L.ads, ad.id = p.id) →
      processPayloadInit L blobVH p =
        .error "got init payload but AD already exists") ∧
    (getAd L p.id = none →
      processPayloadInit L blobVH p =
        .ok { ads := L.ads ++ [⟨p.id, ⟨p.batchId, p.predIndex⟩, p.vdsRoot, blobVH⟩],
              adUpdates := L.adUpdates ++ [⟨p.id, 0, EMPTY_VALUE, blobVH⟩] }) := by
  constructor
  · rintro ⟨ad, had, hid⟩
    have hne : getAd L p.id ≠ none := by
      rw [getAd, Ne, List.find?_eq_none]
      push_neg
      exact ⟨ad, had, by simp [hid]⟩
    rcases hga : getAd L p.id with _ | ad'
    · exact absurd hga hne
    · simp [processPayloadInit, hga]
  · intro hga
    simp [processPayloadInit, hga]

/-- Closed witness for `init_duplicate_rejected`: the duplicate-id case
errors and the fresh-id case inserts both rows. -/
theorem init_duplicate_rejected_spot :
    processPayloadInit
        ⟨[⟨[1, 1, 1, 1], ⟨[2, 2, 2, 2], 0⟩, [3, 3, 3, 3], [7]⟩], []⟩ [9]
        ⟨[1, 1, 1, 1], [2, 2, 2, 2], 0, [3, 3, 3, 3]⟩ =
      .error "got init payload but AD already exists" ∧
    processPayloadInit ⟨[], []⟩ [9] ⟨[1, 1, 1, 1], [2, 2, 2, 2], 0, [3, 3, 3, 3]⟩ =
      .ok { ads := [] ++ [⟨[1, 1, 1, 1], ⟨[2, 2, 2, 2], 0⟩, [3, 3, 3, 3], [9]⟩],
            adUpdates := [] ++ [⟨[1, 1, 1, 1], 0, EMPTY_VALUE, [9]⟩] } :=
  ⟨(init_duplicate_rejected _ _ _).1
      ⟨⟨[1, 1, 1, 1], ⟨[2, 2, 2, 2], 0⟩, [3, 3, 3, 3], [7]⟩, by decide, rfl⟩,
    (init_duplicate_rejected _ _ _).2 (by decide)⟩

/-! ## Slot walker (`synchronizer/src/main.rs`, main loop) -/

/-- The walker's starting slot:
`get_visited_slot_last().map(|x| x + 1).unwrap_or(genesis).max(genesis)`. -/
def initialSlot (genesisSlot : Nat) (lastVisited : Option Nat) : Nat :=
  max ((lastVisited.map (· + 1)).getD genesisSlot) genesisSlot

/-- Walker state: the next slot to process and the `visited_slot` rows in
insertion order. -/
structure WalkerState where
  slot : Nat
  visitedSlots : List Nat
  deriving DecidableEq

/-- One iteration of the walker loop: both the empty-slot branch and the
processed-block branch insert `visited_slot(slot)` and then advance by
exactly one (`slot += 1`). -/
def walkerStep (w : WalkerState) : WalkerState :=
  { slot := w.slot + 1, visitedSlots := w.visitedSlots ++ [w.slot] }

/-- The `n` iterations of the walker loop. -/
def walkerRun (w : WalkerState) : Nat → WalkerState
  | 0 => w
  | n + 1 => walkerRun (walkerStep w) n

theorem walkerRun_spec (w : WalkerState) (n : Nat) :
    (walkerRun w n).slot = w.slot + n ∧
    (walkerRun w n).visitedSlots = w.visitedSlots ++ List.range' w.slot n := by
  induction n generalizing w with
  | zero => simp [walkerRun]
  | succ n ih =>
    obtain ⟨ih1, ih2⟩ := ih (walkerStep w)
    rw [walkerRun]
    refine ⟨by rw [ih1]; simp [walkerStep]; omega, ?_⟩
    rw [ih2, List.range'_succ]
    simp [walkerStep]

/-- C7: the walker starts at `max(genesis_slot, last_visited + 1)`
(`genesis_slot` when nothing was visited), advances exactly one slot per
iteration, and records every processed slot, so after `n` iterations the
`visited_slot` rows in insertion order are the `n` consecutive slots from
the starting slot — strictly increasing with no gaps. -/
theorem walker_visits_consecutive_slots (genesisSlot : Nat)
    (lastVisited : Option Nat) (n : Nat) :
    initialSlot genesisSlot none = genesisSlot ∧
    (∀ x, initialSlot genesisSlot (some x) = max genesisSlot (x + 1)) ∧
    (walkerRun ⟨initialSlot genesisSlot lastVisited, []⟩ n).slot =
      initialSlot genesisSlot lastVisited + n ∧
    (walkerRun ⟨initialSlot genesisSlot lastVisited, []⟩ n).visitedSlots =
      List.range' (initialSlot genesisSlot lastVisited) n ∧
    List.Chain' (· < ·)
      (walkerRun ⟨initialSlot genesisSlot lastVisited, []⟩ n).visitedSlots := by
  obtain ⟨h1, h2⟩ := walkerRun_spec ⟨initialSlot genesisSlot lastVisited, []⟩ n
  refine ⟨by simp [initialSlot], fun x => ?_, h1, by simpa using h2, ?_⟩
  · simp [initialSlot, Nat.max_comm]
  · rw [h2]
    simpa using (List.pairwise_lt_range' _ n).chain'

/-! ## Blob transport (`ad-server/src/eth.rs`) -/

/-- A 20-byte Ethereum address. -/
abbrev EthAddress := List Nat

/-- The `Address::from([0x42; 20])`: the receiver hardcoded in
`send_payload`. -/
def addr42 : EthAddress := List.replicate 20 0x42

/-- The `DATA_GAS_PER_BLOB`. -/
def DATA_GAS_PER_BLOB : Nat := 131072

/-- The configuration fields `send_payload`/`send_tx` consult.  `to_addr`
is the `TO_ADDR` value loaded by `Config::from_env`. -/
structure EthConfig where
  privKey : String
  toAddr : EthAddress
  txWatchTimeout : Nat
  deriving DecidableEq

/-- A transaction receipt as checked by `send_payload`. -/
structure Receipt where
  rcptFrom : EthAddress
  rcptTo : Option EthAddress
  blobGasUsed : Option Nat
  deriving DecidableEq

/-- An RPC failure: the rate-limit response or any other error. -/
inductive RpcError where
  | tooManyRequests
  | other (msg : String)
  deriving DecidableEq

/-- The provider's responses, indexed by the fee percentage of the
attempt (111, 222, 444, …; each retry doubles it, so the percentage
identifies the attempt): the result of `send_transaction`, of the
timeout-guarded watch, and of `get_transaction_receipt`. -/
structure TxEnv where
  sendResult : Nat → Option RpcError
  watchResult : Nat → Option RpcError
  receiptResult : Nat → Except RpcError (Option Receipt)
  txHash : List Nat

/-- Outcome of `send_tx`: a receipt, an error returned to the caller, a
process-terminating `panic!`, or divergence (the source recurses without
bound; fuel counts the remaining attempts). -/
inductive TxOutcome where
  | ok (receipt : Receipt)
  | err (msg : String)
  | panicked (msg : String)
  | diverged
  deriving DecidableEq

/-- The `send_tx`: submit, watch, fetch the receipt.  A "Too Many Requests"
submission error returns an error to the caller; a "Too Many Requests"
watch error hits the `panic!` arm; any other submission error, watch
error or missing receipt sleeps one second and recurses with the same
nonce and `fee_percentage * 2`; a `get_transaction_receipt` transport
error propagates through `?`. -/
def sendTx (env : TxEnv) : Nat → Nat → TxOutcome
  | _, 0 => .diverged
  | feePercentage, fuel + 1 =>
    match env.sendResult feePercentage with
    | some .tooManyRequests => .err "rpc-error: Too Many Requests"
    | some (.other _) => sendTx env (feePercentage * 2) fuel
    | none =>
      match env.watchResult feePercentage with
      | some .tooManyRequests => .panicked "error: Too Many Requests"
      | some (.other _) => sendTx env (feePercentage * 2) fuel
      | none =>
        match env.receiptResult feePercentage with
        | .error _ => .err "get_transaction_receipt"
        | .ok none => sendTx env (feePercentage * 2) fuel
        | .ok (some receipt) => .ok receipt

/-- Outcome of `send_payload`. -/
inductive SendPayloadOutcome where
  | ok (txHash : List Nat)
  | err (msg : String)
  | panicked (msg : String)
  | diverged
  deriving DecidableEq

/-- The mock transaction hash returned in test mode. -/
def zeroTxHash : List Nat := List.replicate 32 0

/-- The `send_payload`: in test mode (empty private key) return the zero
hash without touching the network; otherwise call `send_tx` with the
receiver hardcoded as `Address::from([0x42; 20])` and initial fee
percentage 111, then validate the receipt.  The configured `to_addr` is
never read by this function. -/
def sendPayload (cfg : EthConfig) (sender : EthAddress) (env : TxEnv)
    (fuel : Nat) : SendPayloadOutcome :=
  if cfg.privKey = "" then .ok zeroTxHash
  else
    let receiver := addr42
    match sendTx env 111 fuel with
    | .diverged => .diverged
    | .err m => .err m
    | .panicked m => .panicked m
    | .ok receipt =>
      if receipt.rcptFrom ≠ sender then .err "receipt.from != sender"
      else
        match receipt.rcptTo with
        | none => .err "expected receipt.to"
        | some t =>
          if t ≠ receiver then .err "receipt.to != receiver"
          else
            match receipt.blobGasUsed with
            | none => .err "expected EIP-4844 tx"
            | some g =>
              if g ≠ DATA_GAS_PER_BLOB then
                .err "blob_gas_used != DATA_GAS_PER_BLOB"
              else .ok env.txHash

/-- C3: `send_payload` does not use the configured `TO_ADDR`.  With
`TO_ADDR` set to the zero address, a run whose receipt has
`to = TO_ADDR` (and correct sender and blob gas) is rejected with
"receipt.to != receiver", while a receipt with `to = 0x4242…42` — a
value different from the configured `TO_ADDR` — is accepted: the
receiver is the hardcoded `0x42` address, not the configuration
value. -/
theorem sendPayload_ignores_configured_to_addr :
    sendPayload ⟨"k", List.replicate 20 0, 1⟩ (List.replicate 20 1)
        { sendResult := fun _ => none, watchResult := fun _ => none,
          receiptResult := fun _ => .ok (some
            ⟨List.replicate 20 1, some (List.replicate 20 0),
              some DATA_GAS_PER_BLOB⟩),
          txHash := [1] } 1 =
      .err "receipt.to != receiver" ∧
    sendPayload ⟨"k", List.replicate 20 0, 1⟩ (List.replicate 20 1)
        { sendResult := fun _ => none, watchResult := fun _ => none,
          receiptResult := fun _ => .ok (some
            ⟨List.replicate 20 1, some addr42, some DATA_GAS_PER_BLOB⟩),
          txHash := [1] } 1 =
      .ok [1] := by
  constructor <;> rfl

/-- C9 counterexample: a rate-limit response during the watch phase does
not surface as an error return — it hits the `panic!` arm and terminates
the process. -/
theorem sendTx_watch_rate_limit_panics :
    sendTx
        { sendResult := fun _ => none,
          watchResult := fun _ => some .tooManyRequests,
          receiptResult := fun _ => .ok none, txHash := [1] } 111 5 =
      .panicked "error: Too Many Requests" := rfl

/-- C9 amended: a rate-limit response stops the retry loop at once, but
how it surfaces depends on where it happens: during submission it is
returned to the caller as an error; during the watch it terminates the
process via `panic!` instead of an error return. -/
theorem rate_limit_not_retried (env : TxEnv) (p fuel : Nat) :
    (env.sendResult p = some .tooManyRequests →
      sendTx env p (fuel + 1) = .err "rpc-error: Too Many Requests") ∧
    (env.sendResult p = none → env.watchResult p = some .tooManyRequests →
      sendTx env p (fuel + 1) = .panicked "error: Too Many Requests") := by
  constructor
  · intro h
    simp [sendTx, h]
  · intro h1 h2
    simp [sendTx, h1, h2]

/-- Closed witness for `rate_limit_not_retried` at concrete environments:
rate-limited submission and rate-limited watch. -/
theorem rate_limit_not_retried_spot :
    sendTx
        { sendResult := fun _ => some .tooManyRequests,
          watchResult := fun _ => none,
          receiptResult := fun _ => .ok none, txHash := [1] } 111 1 =
      .err "rpc-error: Too Many Requests" ∧
    sendTx
        { sendResult := fun _ => none,
          watchResult := fun _ => some .tooManyRequests,
          receiptResult := fun _ => .ok none, txHash := [1] } 111 1 =
      .panicked "error: Too Many Requests" :=
  ⟨(rate_limit_not_retried _ 111 0).1 rfl,
    (rate_limit_not_retried _ 111 0).2 rfl rfl⟩

/-! ## Blob decoding (`synchronizer/src/lib.rs`) -/

/-- The `u64::from_be_bytes` over an 8-byte list. -/
def beBytesToU64 (bs : List Nat) : Nat :=
  bs.foldl (fun acc b => acc * 256 + b) 0

/-- The `FIELD_ELEMENT_BYTES_USIZE`. -/
def FIELD_ELEMENT_BYTES : Nat := 32

/-- Release-profile `usize` wrap-around subtraction, as in the
`blob_bytes.len() / 32 - 1` expression (which underflows for blobs
shorter than 32 bytes). -/
def usizeSub (a b : Nat) : Nat := (a % 2 ^ 64 + 2 ^ 64 - b % 2 ^ 64) % 2 ^ 64

/-- The declared data length: `u64::from_be_bytes` of bytes 1..9. -/
def simpleBlobDataLen (blob : List Nat) : Nat :=
  beBytesToU64 ((blob.drop 1).take 8)

/-- The capacity bound
`(blob_bytes.len() / 32 - 1) * (32 - 1)` in `usize` arithmetic. -/
def simpleBlobMaxDataLen (blob : List Nat) : Nat :=
  usizeSub (blob.length / FIELD_ELEMENT_BYTES) 1 * (FIELD_ELEMENT_BYTES - 1) % 2 ^ 64

/-- The `slice::chunks(32)`: successive 32-byte chunks, the last one possibly
shorter. -/
def chunks32 (l : List Nat) : List (List Nat) :=
  if h : l = [] then [] else l.take 32 :: chunks32 (l.drop 32)
termination_by l.length
decreasing_by
  simp only [List.length_drop]
  have : 0 < l.length := List.length_pos.mpr h
  omega

/-- The `bytes_from_simple_blob`.  `none` models the out-of-bounds panic of
`blob_bytes[1 + i]` (for `i < 8`) on a slice shorter than 9 bytes; the
only `Err` is the capacity check, whose message carries the blob and
data lengths. -/
def bytesFromSimpleBlob (blob : List Nat) : Option (Except String (List Nat)) :=
  if blob.length < 9 then none
  else if simpleBlobMaxDataLen blob < simpleBlobDataLen blob then
    some (.error "Given blob cannot accommodate the declared data length.")
  else
    some (.ok ((((chunks32 blob).drop 1).map (List.drop 1)).flatten.take
      (simpleBlobDataLen blob)))

/-- C10: `bytes_from_simple_blob` is not total: on every slice shorter
than 9 bytes it panics on out-of-bounds indexing while reading the
big-endian length from bytes 1..9 instead of returning an error, and the
declared-length-exceeds-capacity case is the only one reported as an
`Err` (any 9-byte-or-longer input within capacity decodes to `Ok`). -/
theorem bytesFromSimpleBlob_cases :
    (∀ blob : List Nat, blob.length < 9 → bytesFromSimpleBlob blob = none) ∧
    (∀ (blob : List Nat) (e : String), bytesFromSimpleBlob blob = some (.error e) →
      simpleBlobMaxDataLen blob < simpleBlobDataLen blob) ∧
    (∀ blob : List Nat, 9 ≤ blob.length →
      simpleBlobDataLen blob ≤ simpleBlobMaxDataLen blob →
      bytesFromSimpleBlob blob =
        some (.ok ((((chunks32 blob).drop 1).map (List.drop 1)).flatten.take
          (simpleBlobDataLen blob)))) := by
  refine ⟨fun blob h => ?_, fun blob e h => ?_, fun blob h1 h2 => ?_⟩
  · rw [bytesFromSimpleBlob, if_pos h]
  · by_cases h9 : blob.length < 9
    · rw [bytesFromSimpleBlob, if_pos h9] at h
      cases h
    · rw [bytesFromSimpleBlob, if_neg h9] at h
      by_cases hc : simpleBlobMaxDataLen blob < simpleBlobDataLen blob
      · exact hc
      · rw [if_neg hc] at h
        simp at h
  · rw [bytesFromSimpleBlob, if_neg (by omega), if_neg (by omega)]

/-- Closed witness for `bytesFromSimpleBlob_cases`: the empty slice
panics; a 9-byte blob declaring `2^64 - 1` data bytes trips the capacity
check; a 64-byte zero blob decodes to `Ok`. -/
theorem bytesFromSimpleBlob_cases_spot :
    bytesFromSimpleBlob [] = none ∧
    simpleBlobMaxDataLen [0, 255, 255, 255, 255, 255, 255, 255, 255] <
      simpleBlobDataLen [0, 255, 255, 255, 255, 255, 255, 255, 255] ∧
    bytesFromSimpleBlob (List.replicate 64 0) =
      some (.ok ((((chunks32 (List.replicate 64 0)).drop 1).map
        (List.drop 1)).flatten.take (simpleBlobDataLen (List.replicate 64 0)))) :=
  ⟨bytesFromSimpleBlob_cases.1 [] (by decide),
    bytesFromSimpleBlob_cases.2.1 [0, 255, 255, 255, 255, 255, 255, 255, 255]
      "Given blob cannot accommodate the declared data length." (by rfl),
    bytesFromSimpleBlob_cases.2.2 (List.replicate 64 0) (by decide) (by decide)⟩
